import Mathlib

/-
Verification of the 2D transient heat conduction solver (meshing.py, analysis.py).

Shallow embedding conventions:
- Python floats are embedded as exact rationals (ℚ).
- Python list indexing l[i] (which admits negative indices and raises IndexError
  out of range) is embedded as pyIdx; a caught exception becomes Option.none.
- A crash (uncaught exception such as AttributeError on None, IndexError, or
  ZeroDivisionError) is modelled by an Option-valued function returning none.
- The solver only ever uses dist(...)**2; since (sqrt s)^2 = s for s ≥ 0, the
  embedding works with squared distances directly and never takes a square root.
-/

/-- Material interface as used by meshing.py and analysis.py.  material.py is an
external collaborator (the spec's Material Provider): density is a constant,
specific heat and thermal conductivity are functions of temperature. -/
structure Material where
  get_density : ℚ
  get_specific_heat : ℚ → ℚ
  get_thermal_conductivity : ℚ → ℚ

/-- A cell is a 3D cube of material (class cell in meshing.py).  Fields are
exactly the attributes assigned by cell.__init__. -/
structure cell where
  index : ℤ × ℤ × ℤ
  pos : ℚ × ℚ × ℚ
  mtl : Material
  T : ℚ
  fixed : Bool
  L_x : ℚ
  L_y : ℚ
  L_z : ℚ
  A_x : ℚ
  A_y : ℚ
  A_z : ℚ
  V : ℚ
  m : ℚ

/-- cell.__init__(index, pos, size, mtl, temp, fixed=False): stores the plain
attributes and the derived areas, volume and mass (density·V in kg, then ×1000
to grams). -/
def cell.init (index : ℤ × ℤ × ℤ) (pos : ℚ × ℚ × ℚ) (size : ℚ × ℚ × ℚ)
    (mtl : Material) (temp : ℚ) (fixed : Bool) : cell :=
  { index := index, pos := pos, mtl := mtl, T := temp, fixed := fixed,
    L_x := size.1, L_y := size.2.1, L_z := size.2.2,
    A_x := size.2.1 * size.2.2, A_y := size.1 * size.2.2, A_z := size.1 * size.2.1,
    V := size.1 * size.2.1 * size.2.2,
    m := mtl.get_density * (size.1 * size.2.1 * size.2.2) / 1000000000 * 1000 }

def cell.get_index (self : cell) : ℤ × ℤ × ℤ := self.index

def cell.get_T (self : cell) : ℚ := self.T

def cell.get_pos (self : cell) : ℚ × ℚ × ℚ := self.pos

def cell.get_m (self : cell) : ℚ := self.m

def cell.get_spec_heat (self : cell) : ℚ := self.mtl.get_specific_heat self.T

def cell.get_density (self : cell) : ℚ := self.mtl.get_density

def cell.get_thermal_conductivity (self : cell) : ℚ :=
  self.mtl.get_thermal_conductivity self.T

def cell.is_fixed (self : cell) : Bool := self.fixed

/-- The attribute names assigned by cell.__init__ (meshing.py lines 52-73), in
assignment order.  Python object attributes exist exactly when assigned; a read
of any other name raises AttributeError. -/
def cellAttrs : List String :=
  ["index", "pos", "mtl", "T", "fixed", "L_x", "L_y", "L_z",
   "A_x", "A_y", "A_z", "V", "m"]

/-- cell.get_heat_cpc (meshing.py lines 99-100) evaluates
self.mtl.get_specific_heat(self.T) * self.mass.  The attribute read self.mass
succeeds only if "mass" was ever assigned; cell.__init__ assigns the mass to
self.m instead, so the read raises AttributeError, modelled as none. -/
def cell.get_heat_cpc (self : cell) : Option ℚ :=
  if cellAttrs.contains "mass" then
    some (self.mtl.get_specific_heat self.T * self.m)
  else
    none

/-- Python list subscript l[i]: a negative index i with -len(l) ≤ i addresses
l[len(l)+i]; any other out-of-range index raises IndexError (here: none). -/
def pyIdx {α : Type} (l : List α) (i : ℤ) : Option α :=
  if 0 ≤ i then l.get? i.toNat
  else if -i ≤ (l.length : ℤ) then l.get? (l.length - (-i).toNat)
  else none

/-- class mesh (meshing.py lines 37-48). -/
structure mesh where
  n_x : ℕ
  n_y : ℕ
  n_z : ℕ
  cells : List (List (List cell))

/-- mesh.get_cell: return self.cells[index_z][index_y][index_x] inside
try/except, any exception yielding None.  Python subscripting admits negative
(wraparound) indices, so this is three chained pyIdx lookups. -/
def mesh.get_cell (self : mesh) (index_x index_y index_z : ℤ) : Option cell :=
  (pyIdx self.cells index_z).bind fun plane =>
    (pyIdx plane index_y).bind fun row =>
      pyIdx row index_x

/-- Direct nonneg-index access self.cells[z][y][x] used to state properties. -/
def cellAt (m : mesh) (z y x : ℕ) : Option cell :=
  (m.cells.get? z).bind fun plane =>
    (plane.get? y).bind fun row =>
      row.get? x

/-- The index a Python subscript resolves to: n + i for negative i, i itself
otherwise. -/
def wrap (n : ℕ) (i : ℤ) : ℕ :=
  if i < 0 then ((n : ℤ) + i).toNat else i.toNat

/-- The mesh is a regular box: n_z planes of n_y rows of n_x cells. -/
def mesh.wf (self : mesh) : Bool :=
  self.cells.length == self.n_z &&
    self.cells.all fun plane =>
      plane.length == self.n_y && plane.all fun row => row.length == self.n_x

/-- len(mesh.cells[0]) as the solver loops evaluate it (0 when the outer loop
is empty and the expression is never evaluated). -/
def mesh.loopNy (self : mesh) : ℕ :=
  match self.cells with
  | [] => 0
  | plane :: _ => plane.length

/-- len(mesh.cells[0][0]) as the solver loops evaluate it (0 when the middle
loop is empty and the expression is never evaluated). -/
def mesh.loopNx (self : mesh) : ℕ :=
  match self.cells with
  | [] => 0
  | plane :: _ =>
    match plane with
    | [] => 0
    | row :: _ => row.length

/-- The (z_i, y_i, x_i) iteration of the solver's triple loop: z outermost,
then y, then x innermost. -/
def enumTriples (nz ny nx : ℕ) : List (ℕ × ℕ × ℕ) :=
  (List.range nz).flatMap fun z =>
    (List.range ny).flatMap fun y =>
      (List.range nx).map fun x => (z, y, x)

def mesh.enumCells (self : mesh) : List (ℕ × ℕ × ℕ) :=
  enumTriples self.cells.length self.loopNy self.loopNx

/-- create_equal_cell_mesh (meshing.py lines 114-145): the four-edge boundary
layout, with the x-edge branches tested before the y-edge branches. -/
def create_equal_cell_mesh (n_x n_y n_z : ℕ) (L_x L_y L_z : ℚ) (mtl : Material)
    (T_in T_left T_right T_front T_rear : ℚ) : mesh :=
  { n_x := n_x, n_y := n_y, n_z := n_z,
    cells :=
      (List.range n_z).map fun z_i : ℕ =>
        (List.range n_y).map fun y_i : ℕ =>
          (List.range n_x).map fun x_i : ℕ =>
            let new_cell_pos : ℚ × ℚ × ℚ := (L_x * x_i, L_y * y_i, L_z * z_i)
            let idx : ℤ × ℤ × ℤ := ((x_i : ℤ), (y_i : ℤ), (z_i : ℤ))
            if x_i = 0 then
              cell.init idx new_cell_pos (L_x, L_y, L_z) mtl T_left true
            else if x_i = n_x - 1 then
              cell.init idx new_cell_pos (L_x, L_y, L_z) mtl T_right true
            else if y_i = 0 then
              cell.init idx new_cell_pos (L_x, L_y, L_z) mtl T_front true
            else if y_i = n_y - 1 then
              cell.init idx new_cell_pos (L_x, L_y, L_z) mtl T_rear true
            else
              cell.init idx new_cell_pos (L_x, L_y, L_z) mtl T_in false }

/-- create_equal_cell_mesh_left_fixed (meshing.py lines 147-171): only the
left edge (x = 0) is fixed. -/
def create_equal_cell_mesh_left_fixed (n_x n_y n_z : ℕ) (L_x L_y L_z : ℚ)
    (mtl : Material) (T_in T_left : ℚ) : mesh :=
  { n_x := n_x, n_y := n_y, n_z := n_z,
    cells :=
      (List.range n_z).map fun z_i : ℕ =>
        (List.range n_y).map fun y_i : ℕ =>
          (List.range n_x).map fun x_i : ℕ =>
            let new_cell_pos : ℚ × ℚ × ℚ := (L_x * x_i, L_y * y_i, L_z * z_i)
            let idx : ℤ × ℤ × ℤ := ((x_i : ℤ), (y_i : ℤ), (z_i : ℤ))
            if x_i = 0 then
              cell.init idx new_cell_pos (L_x, L_y, L_z) mtl T_left true
            else
              cell.init idx new_cell_pos (L_x, L_y, L_z) mtl T_in false }

/-- Squared Euclidean distance between two positions.  analysis.py's dist
(line 44-45) takes a square root, but the solver only ever uses dist(...)**2
(dx**2 and dy**2 on line 96); since (sqrt s)^2 = s for s ≥ 0 the embedding
carries the square directly. -/
def dist_sq (pos1 pos2 : ℚ × ℚ × ℚ) : ℚ :=
  (pos2.1 - pos1.1) ^ 2 + (pos2.2.1 - pos1.2.1) ^ 2 + (pos2.2.2 - pos1.2.2) ^ 2

/-- One iteration of the triple-loop body of conduct_differential_heat_on_mesh
(analysis.py lines 57-100), producing this cell's dT.  none models an uncaught
exception: get_cell returning None here crashes on .is_fixed()/.get_pos()
(lines 58-67 dereference cell, cell_left and cell_front before any None check,
so the None branches for T_left and T_front on lines 71-74 and 81-84 are
unreachable), and a zero divisor raises ZeroDivisionError. -/
def cellBody (m : mesh) (dt : ℚ) (z_i y_i x_i : ℕ) : Option ℚ := do
  let c ← m.get_cell x_i y_i z_i
  if c.is_fixed then
    pure 0
  else
    let cell_left := m.get_cell ((x_i : ℤ) - 1) y_i z_i
    let cell_right := m.get_cell ((x_i : ℤ) + 1) y_i z_i
    let cell_front := m.get_cell x_i ((y_i : ℤ) - 1) z_i
    let cell_rear := m.get_cell x_i ((y_i : ℤ) + 1) z_i
    let cl ← cell_left
    let cf ← cell_front
    let dx_sq := dist_sq c.get_pos cl.get_pos * (1 / 1000) ^ 2
    let dy_sq := dist_sq c.get_pos cf.get_pos * (1 / 1000) ^ 2
    let T_c := c.get_T
    let T_left := cl.get_T
    let T_right := match cell_right with
      | some cr => cr.get_T
      | none => T_c
    let T_front := cf.get_T
    let T_rear := match cell_rear with
      | some cb => cb.get_T
      | none => T_c
    let k := c.get_thermal_conductivity
    let rho := c.get_density
    let spec_heat := c.get_spec_heat
    if rho * spec_heat = 0 then none
    else if dx_sq = 0 ∨ dy_sq = 0 then none
    else
      let alpha := k / (rho * spec_heat)
      pure (alpha * ((T_left - 2 * T_c + T_right) / dx_sq
        + (T_front - 2 * T_c + T_rear) / dy_sq) * dt)

/-- cellBody uncurried over an enumeration triple (z_i, y_i, x_i). -/
def cellBodyT (m : mesh) (dt : ℚ) (t : ℕ × ℕ × ℕ) : Option ℚ :=
  cellBody m dt t.1 t.2.1 t.2.2

/-- conduct_differential_heat_on_mesh (analysis.py lines 47-102): iterate the
cells in z-outer, y-middle, x-inner order, appending each cell's dT to the dTs
list; a crash in any iteration aborts the whole call (none). -/
def conduct_differential_heat_on_mesh (m : mesh) (dt : ℚ) : Option (List ℚ) :=
  m.enumCells.foldl
    (fun dTs t => dTs.bind fun ds => (cellBodyT m dt t).map fun dT => ds ++ [dT])
    (some [])

/-- Replace the i-th entry of a list, leaving the list unchanged out of range. -/
def listModify {α : Type} (f : α → α) : List α → ℕ → List α
  | [], _ => []
  | a :: l, 0 => f a :: l
  | a :: l, n + 1 => a :: listModify f l n

/-- Replace the cell at cells[z][y][x]. -/
def modifyCell (cells : List (List (List cell))) (z y x : ℕ) (f : cell → cell) :
    List (List (List cell)) :=
  listModify (fun plane => listModify (fun row => listModify f row x) plane y) cells z

/-- One iteration of the apply sweep in conduct_heat_in_time_interval
(analysis.py lines 111-118): fetch the cell (None → AttributeError crash),
read dTs[i] (out of range → IndexError crash), add it to the cell's
temperature, and advance the running index i. -/
def sweepStep (dTs : List ℚ) (acc : Option (mesh × ℕ)) (t : ℕ × ℕ × ℕ) :
    Option (mesh × ℕ) :=
  acc.bind fun mi =>
    (mi.1.get_cell t.2.2 t.2.1 t.1).bind fun _c =>
      (dTs.get? mi.2).map fun dT =>
        ({ mi.1 with
            cells := modifyCell mi.1.cells t.1 t.2.1 t.2.2
              fun cc => { cc with T := cc.T + dT } },
          mi.2 + 1)

/-- The full apply sweep of one time step: the same z-outer, y-middle, x-inner
enumeration as the delta computation, with the flat counter i starting at 0. -/
def applyDTs (m : mesh) (dTs : List ℚ) : Option mesh :=
  (m.enumCells.foldl (sweepStep dTs) (some (m, 0))).map Prod.fst

/-- n executions of the while-loop body of conduct_heat_in_time_interval:
compute all dTs from the current snapshot, then apply them in one sweep. -/
def iterate_steps (dt : ℚ) : ℕ → mesh → Option mesh
  | 0, m => some m
  | n + 1, m =>
    ((conduct_differential_heat_on_mesh m dt).bind (applyDTs m)).bind
      (iterate_steps dt n)

/-- conduct_heat_in_time_interval (analysis.py lines 104-120): time starts at
0 and grows by dt per iteration, so with exact arithmetic the while-loop body
runs while n·dt < time_end, i.e. ⌈time_end/dt⌉ times for positive time_end and
dt.  time_end ≤ 0 runs the body zero times; dt ≤ 0 with positive time_end
never terminates, modelled as none. -/
def conduct_heat_in_time_interval (m : mesh) (time_end : ℚ) (dt : ℚ) :
    Option mesh :=
  if time_end ≤ 0 then some m
  else if dt ≤ 0 then none
  else iterate_steps dt (Nat.ceil (time_end / dt)) m

/-- Modelled from the spec: a neighbor lookup that "misses" exactly when the
index lies outside [0, n) for its axis (the spec's grid bounds), with no
Python wraparound.  Used only to state what the spec's Policy A fallback
claims the solver does. -/
def boundedLookup (m : mesh) (ix iy iz : ℤ) : Option cell :=
  if 0 ≤ ix ∧ ix < m.n_x ∧ 0 ≤ iy ∧ iy < m.n_y ∧ 0 ≤ iz ∧ iz < m.n_z then
    m.get_cell ix iy iz
  else none

/-- Modelled from the spec: the loop body as the spec's Policy A fallback
describes it — each of the four in-plane neighbor temperatures falls back to
the cell's own temperature whenever that neighbor's index is outside the grid
bounds.  The spec constrains only the temperatures; the geometric dx, dy are
taken exactly as the implementation computes them (from the unguarded
lookups).  This definition exists solely to compare the implementation
against the spec's words. -/
def cellBody_spec_fallback (m : mesh) (dt : ℚ) (z_i y_i x_i : ℕ) : Option ℚ := do
  let c ← m.get_cell x_i y_i z_i
  if c.is_fixed then
    pure 0
  else
    let cl ← m.get_cell ((x_i : ℤ) - 1) y_i z_i
    let cf ← m.get_cell x_i ((y_i : ℤ) - 1) z_i
    let dx_sq := dist_sq c.get_pos cl.get_pos * (1 / 1000) ^ 2
    let dy_sq := dist_sq c.get_pos cf.get_pos * (1 / 1000) ^ 2
    let T_c := c.get_T
    let T_left := match boundedLookup m ((x_i : ℤ) - 1) y_i z_i with
      | some cc => cc.get_T
      | none => T_c
    let T_right := match boundedLookup m ((x_i : ℤ) + 1) y_i z_i with
      | some cc => cc.get_T
      | none => T_c
    let T_front := match boundedLookup m x_i ((y_i : ℤ) - 1) z_i with
      | some cc => cc.get_T
      | none => T_c
    let T_rear := match boundedLookup m x_i ((y_i : ℤ) + 1) z_i with
      | some cc => cc.get_T
      | none => T_c
    let k := c.get_thermal_conductivity
    let rho := c.get_density
    let spec_heat := c.get_spec_heat
    if rho * spec_heat = 0 then none
    else if dx_sq = 0 ∨ dy_sq = 0 then none
    else
      let alpha := k / (rho * spec_heat)
      pure (alpha * ((T_left - 2 * T_c + T_right) / dx_sq
        + (T_front - 2 * T_c + T_rear) / dy_sq) * dt)

/-- The temperatures of all cells in enumeration order. -/
def tempsOf (m : mesh) : List (Option ℚ) :=
  m.enumCells.map fun t => (cellAt m t.1 t.2.1 t.2.2).map cell.get_T

/-- Option-valued map, for relating the delta fold to a per-cell function. -/
def mapOpt {α β : Type} (f : α → Option β) : List α → Option (List β)
  | [] => some []
  | a :: l => (f a).bind fun b => (mapOpt f l).map fun bs => b :: bs

/-- A material with constant properties k = 1 W/(m·K), ρ = 1000 kg/m³,
c = 500 J/(kg·K), as in the spec's concrete scenario (α = 2·10⁻⁶ m²/s). -/
def mtlConst : Material :=
  { get_density := 1000,
    get_specific_heat := fun _ => 500,
    get_thermal_conductivity := fun _ => 1 }

/-- The spec's concrete scenario mesh: 3×3×1, 10 mm cells, interior at 300 K,
all four edges fixed at 400 K. -/
def mesh3x3 : mesh := create_equal_cell_mesh 3 3 1 10 10 10 mtlConst 300 400 400 400 400

/-- The deltas one step with dt = 0.01 s produces on mesh3x3: only the single
free cell (1,1,0), at flat position 4, changes, by 0.08 K. -/
def dsC : List ℚ := [0, 0, 0, 0, 2 / 25, 0, 0, 0, 0]

/-- The cell mesh3x3 stores at (0,0,0): on the left edge, fixed at 400 K. -/
def cornerCell : cell := cell.init (0, 0, 0) (0, 0, 0) (10, 10, 10) mtlConst 400 true

/-- A 2×2×1 mesh exercising Python index wraparound: the left column is fixed
at 400 K and the free right-column cells hold different temperatures (300 K at
y = 0, 350 K at y = 1), so the front lookup of cell (1,0,0) — index y = -1,
outside the grid — wraps to the rear cell (1,1,0) instead of falling back. -/
def meshWrap : mesh :=
  { n_x := 2, n_y := 2, n_z := 1,
    cells :=
      [[[cell.init (0, 0, 0) (0, 0, 0) (10, 10, 10) mtlConst 400 true,
         cell.init (1, 0, 0) (10, 0, 0) (10, 10, 10) mtlConst 300 false],
        [cell.init (0, 1, 0) (0, 10, 0) (10, 10, 10) mtlConst 400 true,
         cell.init (1, 1, 0) (10, 10, 0) (10, 10, 10) mtlConst 350 false]]] }

/-- A builder call with n_x = 1, below the spec's minimum grid dimension. -/
def meshTiny : mesh := create_equal_cell_mesh 1 2 1 10 10 10 mtlConst 300 400 401 402 403

lemma int_toNat_lit (n : ℕ) : Int.toNat (no_index (OfNat.ofNat n)) = OfNat.ofNat n := rfl

lemma pyIdx_nat {α : Type} (l : List α) (n : ℕ) : pyIdx l (n : ℤ) = l.get? n := by
  simp [pyIdx]

lemma get_cell_nat (m : mesh) (x y z : ℕ) :
    m.get_cell (x : ℤ) (y : ℤ) (z : ℤ) = cellAt m z y x := by
  simp [mesh.get_cell, cellAt, pyIdx_nat]

lemma pyIdx_char {α : Type} (l : List α) (i : ℤ) :
    pyIdx l i =
      if -(l.length : ℤ) ≤ i ∧ i < (l.length : ℤ) then l.get? (wrap l.length i)
      else none := by
  unfold pyIdx wrap
  by_cases h0 : 0 ≤ i
  · rw [if_pos h0]
    by_cases hlt : i < (l.length : ℤ)
    · rw [if_pos ⟨by omega, hlt⟩, if_neg (by omega)]
    · rw [if_neg (by omega)]
      exact List.get?_eq_none.mpr (by omega)
  · rw [if_neg h0]
    by_cases hge : -i ≤ (l.length : ℤ)
    · rw [if_pos hge, if_pos ⟨by omega, by omega⟩, if_pos (by omega)]
      congr 1
      omega
    · rw [if_neg hge, if_neg (by omega)]

lemma wf_lengths (m : mesh) (h : m.wf = true) :
    m.cells.length = m.n_z ∧
      ∀ plane ∈ m.cells, plane.length = m.n_y ∧ ∀ row ∈ plane, row.length = m.n_x := by
  simpa [mesh.wf, List.all_eq_true] using h

lemma cellAt_some (m : mesh) (h : m.wf = true) (z y x : ℕ)
    (hz : z < m.n_z) (hy : y < m.n_y) (hx : x < m.n_x) :
    ∃ c, cellAt m z y x = some c := by
  obtain ⟨hlen, hpl⟩ := wf_lengths m h
  have hz2 : z < m.cells.length := by omega
  have hplane : m.cells.get? z = some (m.cells.get ⟨z, hz2⟩) := List.get?_eq_get hz2
  obtain ⟨hplen, hrow⟩ := hpl (m.cells.get ⟨z, hz2⟩) (List.get_mem m.cells z hz2)
  have hy2 : y < (m.cells.get ⟨z, hz2⟩).length := by omega
  have hrow? : (m.cells.get ⟨z, hz2⟩).get? y
      = some ((m.cells.get ⟨z, hz2⟩).get ⟨y, hy2⟩) := List.get?_eq_get hy2
  have hrlen := hrow ((m.cells.get ⟨z, hz2⟩).get ⟨y, hy2⟩)
    (List.get_mem (m.cells.get ⟨z, hz2⟩) y hy2)
  have hx2 : x < ((m.cells.get ⟨z, hz2⟩).get ⟨y, hy2⟩).length := by omega
  have hcell : ((m.cells.get ⟨z, hz2⟩).get ⟨y, hy2⟩).get? x
      = some (((m.cells.get ⟨z, hz2⟩).get ⟨y, hy2⟩).get ⟨x, hx2⟩) := List.get?_eq_get hx2
  exact ⟨_, by unfold cellAt; rw [hplane, Option.some_bind, hrow?, Option.some_bind, hcell]⟩


lemma cellAt_none_x (m : mesh) (h : m.wf = true) (z y x : ℕ)
    (hz : z < m.n_z) (hy : y < m.n_y) (hx : m.n_x ≤ x) :
    cellAt m z y x = none := by
  obtain ⟨hlen, hpl⟩ := wf_lengths m h
  have hz2 : z < m.cells.length := by omega
  have hplane : m.cells.get? z = some (m.cells.get ⟨z, hz2⟩) := List.get?_eq_get hz2
  obtain ⟨hplen, hrow⟩ := hpl (m.cells.get ⟨z, hz2⟩) (List.get_mem m.cells z hz2)
  have hy2 : y < (m.cells.get ⟨z, hz2⟩).length := by omega
  have hrow? : (m.cells.get ⟨z, hz2⟩).get? y
      = some ((m.cells.get ⟨z, hz2⟩).get ⟨y, hy2⟩) := List.get?_eq_get hy2
  have hrlen := hrow ((m.cells.get ⟨z, hz2⟩).get ⟨y, hy2⟩)
    (List.get_mem (m.cells.get ⟨z, hz2⟩) y hy2)
  have hnone : ((m.cells.get ⟨z, hz2⟩).get ⟨y, hy2⟩).get? x = none :=
    List.get?_eq_none.mpr (by omega)
  unfold cellAt
  rw [hplane, Option.some_bind, hrow?, Option.some_bind, hnone]

lemma cellAt_none_y (m : mesh) (h : m.wf = true) (z y x : ℕ)
    (hz : z < m.n_z) (hy : m.n_y ≤ y) :
    cellAt m z y x = none := by
  obtain ⟨hlen, hpl⟩ := wf_lengths m h
  have hz2 : z < m.cells.length := by omega
  have hplane : m.cells.get? z = some (m.cells.get ⟨z, hz2⟩) := List.get?_eq_get hz2
  obtain ⟨hplen, _⟩ := hpl (m.cells.get ⟨z, hz2⟩) (List.get_mem m.cells z hz2)
  have hnone : (m.cells.get ⟨z, hz2⟩).get? y = none := List.get?_eq_none.mpr (by omega)
  unfold cellAt
  rw [hplane, Option.some_bind, hnone, Option.none_bind]

lemma mapOpt_get? {α β : Type} (f : α → Option β) :
    ∀ (l : List α) (bs : List β), mapOpt f l = some bs →
      ∀ i, bs.get? i = (l.get? i).bind f := by
  intro l
  induction l with
  | nil =>
    intro bs h i
    unfold mapOpt at h
    cases h
    simp
  | cons a l ih =>
    intro bs h i
    unfold mapOpt at h
    cases ha : f a with
    | none => rw [ha] at h; simp at h
    | some b =>
      rw [ha] at h
      simp only [Option.some_bind] at h
      cases hl : mapOpt f l with
      | none => rw [hl] at h; simp at h
      | some bs2 =>
        rw [hl] at h
        simp only [Option.map_some'] at h
        cases h
        cases i with
        | zero => simpa using ha.symm
        | succ n => simpa using ih bs2 hl n

lemma mapOpt_length {α β : Type} (f : α → Option β) :
    ∀ (l : List α) (bs : List β), mapOpt f l = some bs → bs.length = l.length := by
  intro l
  induction l with
  | nil => intro bs h; unfold mapOpt at h; cases h; rfl
  | cons a l ih =>
    intro bs h
    unfold mapOpt at h
    cases ha : f a with
    | none => rw [ha] at h; simp at h
    | some b =>
      rw [ha] at h
      simp only [Option.some_bind] at h
      cases hl : mapOpt f l with
      | none => rw [hl] at h; simp at h
      | some bs2 =>
        rw [hl] at h
        simp only [Option.map_some'] at h
        cases h
        simpa using ih bs2 hl

lemma conduct_foldl_none (m : mesh) (dt : ℚ) :
    ∀ (l : List (ℕ × ℕ × ℕ)),
      l.foldl (fun dTs t => dTs.bind fun ds => (cellBodyT m dt t).map fun dT => ds ++ [dT])
        none = none := by
  intro l
  induction l with
  | nil => rfl
  | cons a l ih => simpa using ih

lemma conduct_eq_mapOpt (m : mesh) (dt : ℚ) :
    conduct_differential_heat_on_mesh m dt = mapOpt (cellBodyT m dt) m.enumCells := by
  unfold conduct_differential_heat_on_mesh
  have gen : ∀ (l : List (ℕ × ℕ × ℕ)) (acc : List ℚ),
      l.foldl (fun dTs t => dTs.bind fun ds => (cellBodyT m dt t).map fun dT => ds ++ [dT])
          (some acc)
        = (mapOpt (cellBodyT m dt) l).map fun bs => acc ++ bs := by
    intro l
    induction l with
    | nil => intro acc; simp [mapOpt]
    | cons a l ih =>
      intro acc
      rw [List.foldl_cons]
      unfold mapOpt
      cases ha : cellBodyT m dt a with
      | none => simpa [ha] using conduct_foldl_none m dt l
      | some b =>
        simp only [ha, Option.some_bind, Option.map_some']
        rw [ih (acc ++ [b])]
        cases mapOpt (cellBodyT m dt) l <;> simp
  simpa using gen m.enumCells []

lemma conduct_get? (m : mesh) (dt : ℚ) (ds : List ℚ)
    (h : conduct_differential_heat_on_mesh m dt = some ds) (i : ℕ) :
    ds.get? i = (m.enumCells.get? i).bind (cellBodyT m dt) := by
  rw [conduct_eq_mapOpt] at h
  exact mapOpt_get? (cellBodyT m dt) m.enumCells ds h i

lemma mem_enumTriples (nz ny nx z y x : ℕ) :
    (z, y, x) ∈ enumTriples nz ny nx ↔ z < nz ∧ y < ny ∧ x < nx := by
  simp only [enumTriples, List.mem_flatMap, List.mem_map, List.mem_range,
    Prod.mk.injEq]
  constructor
  · rintro ⟨a, ha, b, hb, c, hc, rfl, rfl, rfl⟩
    exact ⟨ha, hb, hc⟩
  · rintro ⟨hz, hy, hx⟩
    exact ⟨z, hz, y, hy, x, hx, rfl, rfl, rfl⟩

lemma length_flatMap_const {α β : Type} (l : List α) (f : α → List β) (k : ℕ)
    (h : ∀ a ∈ l, (f a).length = k) : (l.flatMap f).length = l.length * k := by
  induction l with
  | nil => simp
  | cons a l ih =>
    rw [List.flatMap_cons, List.length_append, h a (by simp),
      ih (fun b hb => h b (by simp [hb])), List.length_cons]
    ring

lemma length_enumTriples (nz ny nx : ℕ) :
    (enumTriples nz ny nx).length = nz * (ny * nx) := by
  unfold enumTriples
  have hin : ∀ a ∈ List.range nz,
      ((List.range ny).flatMap fun y =>
        (List.range nx).map fun x => (a, y, x)).length = ny * nx := by
    intro a _
    rw [length_flatMap_const _ _ nx (fun b _ => by simp)]
    simp
  rw [length_flatMap_const _ _ (ny * nx) hin, List.length_range]

lemma enumCells_length_wf (m : mesh) (h : m.wf = true) :
    m.enumCells.length = m.n_z * (m.n_y * m.n_x) := by
  obtain ⟨hlen, hpl⟩ := wf_lengths m h
  unfold mesh.enumCells
  rw [length_enumTriples, hlen]
  cases hc : m.cells with
  | nil =>
    have : m.n_z = 0 := by rw [← hlen, hc]; rfl
    simp [this]
  | cons plane rest =>
    obtain ⟨hplen, hrow⟩ := hpl plane (by rw [hc]; simp)
    have hny : m.loopNy = m.n_y := by rw [mesh.loopNy, hc]; exact hplen
    rw [hny]
    cases hp : plane with
    | nil =>
      have : m.n_y = 0 := by rw [← hplen, hp]; rfl
      simp [this, mesh.loopNx]
    | cons row rest2 =>
      have hnx : m.loopNx = m.n_x := by
        rw [mesh.loopNx, hc, hp]
        exact hrow row (by rw [hp]; simp)
      rw [hnx]

lemma get?_some_lt {α : Type} {l : List α} {n : ℕ} {a : α}
    (h : l.get? n = some a) : n < l.length := by
  by_contra hc
  rw [List.get?_eq_none.mpr (by omega)] at h
  exact Option.noConfusion h

lemma enum_mem_of_cellAt (m : mesh) (hwf : m.wf = true) (z y x : ℕ) (c : cell)
    (hc : cellAt m z y x = some c) : (z, y, x) ∈ m.enumCells := by
  obtain ⟨hlen, hpl⟩ := wf_lengths m hwf
  unfold cellAt at hc
  cases hz : m.cells.get? z with
  | none => rw [hz] at hc; simp at hc
  | some plane =>
    rw [hz] at hc
    simp only [Option.some_bind] at hc
    cases hy : plane.get? y with
    | none => rw [hy] at hc; simp at hc
    | some row =>
      rw [hy] at hc
      simp only [Option.some_bind] at hc
      have hzlt : z < m.cells.length := get?_some_lt hz
      have hylt : y < plane.length := get?_some_lt hy
      have hxlt : x < row.length := get?_some_lt hc
      have hpm : plane ∈ m.cells := List.get?_mem hz
      have hrm : row ∈ plane := List.get?_mem hy
      obtain ⟨hplen, hrows⟩ := hpl plane hpm
      have hrlen := hrows row hrm
      cases hcells : m.cells with
      | nil => rw [hcells] at hz; simp at hz
      | cons p0 rest =>
        obtain ⟨hp0len, hp0rows⟩ := hpl p0 (by rw [hcells]; simp)
        have hny : m.loopNy = m.n_y := by rw [mesh.loopNy, hcells]; exact hp0len
        cases hp0 : p0 with
        | nil =>
          have : m.n_y = 0 := by rw [← hp0len, hp0]; rfl
          omega
        | cons r0 rest2 =>
          have hnx : m.loopNx = m.n_x := by
            rw [mesh.loopNx, hcells, hp0]
            exact hp0rows r0 (by rw [hp0]; simp)
          unfold mesh.enumCells
          rw [mem_enumTriples, hny, hnx]
          omega

lemma listModify_get?_self {α : Type} (f : α → α) :
    ∀ (l : List α) (i : ℕ), (listModify f l i).get? i = (l.get? i).map f := by
  intro l
  induction l with
  | nil => intro i; cases i <;> simp [listModify]
  | cons a l ih =>
    intro i
    cases i with
    | zero => simp [listModify]
    | succ n => simpa [listModify] using ih n

lemma listModify_get?_ne {α : Type} (f : α → α) :
    ∀ (l : List α) (i j : ℕ), i ≠ j → (listModify f l i).get? j = l.get? j := by
  intro l
  induction l with
  | nil => intro i j _; cases i <;> simp [listModify]
  | cons a l ih =>
    intro i j hne
    cases i with
    | zero =>
      cases j with
      | zero => exact absurd rfl hne
      | succ b => simp [listModify]
    | succ n =>
      cases j with
      | zero => simp [listModify]
      | succ b => simpa [listModify] using ih n b (by omega)

lemma cellAt_modify_self (m : mesh) (z y x : ℕ) (f : cell → cell) :
    cellAt { m with cells := modifyCell m.cells z y x f } z y x
      = (cellAt m z y x).map f := by
  unfold cellAt modifyCell
  simp only
  rw [listModify_get?_self]
  cases m.cells.get? z with
  | none => simp
  | some plane =>
    simp only [Option.map_some', Option.some_bind]
    rw [listModify_get?_self]
    cases plane.get? y with
    | none => simp
    | some row =>
      simp only [Option.map_some', Option.some_bind]
      rw [listModify_get?_self]

lemma cellAt_modify_ne (m : mesh) (tz ty tx z y x : ℕ) (f : cell → cell)
    (h : ¬(tz = z ∧ ty = y ∧ tx = x)) :
    cellAt { m with cells := modifyCell m.cells tz ty tx f } z y x
      = cellAt m z y x := by
  unfold cellAt modifyCell
  simp only
  by_cases hz : tz = z
  · subst hz
    rw [listModify_get?_self]
    cases m.cells.get? tz with
    | none => simp
    | some plane =>
      simp only [Option.map_some', Option.some_bind]
      by_cases hy : ty = y
      · subst hy
        rw [listModify_get?_self]
        cases plane.get? ty with
        | none => simp
        | some row =>
          simp only [Option.map_some', Option.some_bind]
          rw [listModify_get?_ne _ _ _ _ (by tauto)]
      · rw [listModify_get?_ne _ _ _ _ hy]
  · rw [listModify_get?_ne _ _ _ _ hz]

lemma cellBody_fixed (m : mesh) (dt : ℚ) (z y x : ℕ) (c : cell)
    (hc : cellAt m z y x = some c) (hfix : c.fixed = true) :
    cellBody m dt z y x = some 0 := by
  unfold cellBody
  rw [get_cell_nat, hc]
  simp [cell.is_fixed, hfix]

lemma sweep_foldl_none (dTs : List ℚ) :
    ∀ (L : List (ℕ × ℕ × ℕ)), L.foldl (sweepStep dTs) none = none := by
  intro L
  induction L with
  | nil => rfl
  | cons t L ih => simpa [sweepStep] using ih

lemma sweep_fixed (dTs : List ℚ) (z y x : ℕ) (c : cell) :
    ∀ (L : List (ℕ × ℕ × ℕ)) (mc : mesh) (i : ℕ) (r : mesh × ℕ),
      L.foldl (sweepStep dTs) (some (mc, i)) = some r →
      cellAt mc z y x = some c →
      (∀ j t, L.get? j = some t → t = (z, y, x) → dTs.get? (i + j) = some 0) →
      cellAt r.1 z y x = some c := by
  intro L
  induction L with
  | nil =>
    intro mc i r hr hc _
    rw [List.foldl_nil] at hr
    cases hr
    exact hc
  | cons t L ih =>
    rintro mc i r hr hc hzero
    obtain ⟨tz, ty, tx⟩ := t
    rw [List.foldl_cons] at hr
    cases hs : sweepStep dTs (some (mc, i)) (tz, ty, tx) with
    | none =>
      rw [hs, sweep_foldl_none] at hr
      exact Option.noConfusion hr
    | some mi1 =>
      rw [hs] at hr
      unfold sweepStep at hs
      rw [Option.some_bind] at hs
      cases hgc : mc.get_cell tx ty tz with
      | none => rw [hgc] at hs; exact Option.noConfusion hs
      | some c0 =>
        rw [hgc, Option.some_bind] at hs
        cases hdt : dTs.get? i with
        | none => rw [hdt] at hs; exact Option.noConfusion hs
        | some dT =>
          rw [hdt, Option.map_some'] at hs
          cases hs
          by_cases ht : tz = z ∧ ty = y ∧ tx = x
          · obtain ⟨rfl, rfl, rfl⟩ := ht
            have h0 : dTs.get? (i + 0) = some 0 := hzero 0 (tz, ty, tx) (by simp) rfl
            rw [Nat.add_zero, hdt] at h0
            cases h0
            have hnew : cellAt { mc with
                cells := modifyCell mc.cells tz ty tx fun cc => { cc with T := cc.T + 0 } }
                tz ty tx = some c := by
              rw [cellAt_modify_self, hc, Option.map_some']
              have : ({ c with T := c.T + 0 } : cell) = c := by
                cases c
                simp
              rw [this]
            refine ih _ (i + 1) r hr hnew ?_
            intro j t2 hj ht2
            have := hzero (j + 1) t2 (by simpa using hj) ht2
            rw [show i + 1 + j = i + (j + 1) by omega]
            exact this
          · have hnew : cellAt { mc with
                cells := modifyCell mc.cells tz ty tx fun cc => { cc with T := cc.T + dT } }
                z y x = some c := by
              rw [cellAt_modify_ne _ _ _ _ _ _ _ _ ht, hc]
            refine ih _ (i + 1) r hr hnew ?_
            intro j t2 hj ht2
            have := hzero (j + 1) t2 (by simpa using hj) ht2
            rw [show i + 1 + j = i + (j + 1) by omega]
            exact this

lemma applyDTs_fixed (m : mesh) (ds : List ℚ) (m1 : mesh) (z y x : ℕ) (c : cell)
    (hap : applyDTs m ds = some m1)
    (hc : cellAt m z y x = some c)
    (hzero : ∀ j, m.enumCells.get? j = some (z, y, x) → ds.get? j = some 0) :
    cellAt m1 z y x = some c := by
  unfold applyDTs at hap
  cases hf : m.enumCells.foldl (sweepStep ds) (some (m, 0)) with
  | none => rw [hf] at hap; exact Option.noConfusion hap
  | some r =>
    rw [hf, Option.map_some'] at hap
    cases hap
    refine sweep_fixed ds z y x c m.enumCells m 0 r hf hc ?_
    intro j t hj ht
    rw [Nat.zero_add]
    exact hzero j (ht ▸ hj)

lemma iterate_steps_fixed (dt : ℚ) (z y x : ℕ) (c : cell) (hfix : c.fixed = true) :
    ∀ (N : ℕ) (m m2 : mesh), iterate_steps dt N m = some m2 →
      cellAt m z y x = some c → cellAt m2 z y x = some c := by
  intro N
  induction N with
  | zero =>
    intro m m2 h hc
    unfold iterate_steps at h
    cases h
    exact hc
  | succ n ih =>
    intro m m2 h hc
    unfold iterate_steps at h
    cases hcd : conduct_differential_heat_on_mesh m dt with
    | none => rw [hcd] at h; exact Option.noConfusion h
    | some ds =>
      rw [hcd, Option.some_bind] at h
      cases hap : applyDTs m ds with
      | none => rw [hap] at h; exact Option.noConfusion h
      | some m1 =>
        rw [hap, Option.some_bind] at h
        refine ih m1 m2 h ?_
        refine applyDTs_fixed m ds m1 z y x c hap hc ?_
        intro j hj
        rw [conduct_get? m dt ds hcd j, hj, Option.some_bind]
        exact cellBody_fixed m dt z y x c hc hfix

lemma cellAt_create_equal_cell_mesh (n_x n_y n_z : ℕ) (L_x L_y L_z : ℚ)
    (mtl : Material) (T_in T_left T_right T_front T_rear : ℚ) (z y x : ℕ)
    (hz : z < n_z) (hy : y < n_y) (hx : x < n_x) :
    cellAt (create_equal_cell_mesh n_x n_y n_z L_x L_y L_z mtl
        T_in T_left T_right T_front T_rear) z y x
      = some (
          if x = 0 then
            cell.init (x, y, z) (L_x * x, L_y * y, L_z * z) (L_x, L_y, L_z) mtl T_left true
          else if x = n_x - 1 then
            cell.init (x, y, z) (L_x * x, L_y * y, L_z * z) (L_x, L_y, L_z) mtl T_right true
          else if y = 0 then
            cell.init (x, y, z) (L_x * x, L_y * y, L_z * z) (L_x, L_y, L_z) mtl T_front true
          else if y = n_y - 1 then
            cell.init (x, y, z) (L_x * x, L_y * y, L_z * z) (L_x, L_y, L_z) mtl T_rear true
          else
            cell.init (x, y, z) (L_x * x, L_y * y, L_z * z) (L_x, L_y, L_z) mtl T_in false) := by
  unfold cellAt create_equal_cell_mesh
  simp only [List.get?_map, List.get?_range hz, List.get?_range hy, List.get?_range hx,
    Option.map_some', Option.some_bind]

lemma cellAt_create_left_fixed (n_x n_y n_z : ℕ) (L_x L_y L_z : ℚ)
    (mtl : Material) (T_in T_left : ℚ) (z y x : ℕ)
    (hz : z < n_z) (hy : y < n_y) (hx : x < n_x) :
    cellAt (create_equal_cell_mesh_left_fixed n_x n_y n_z L_x L_y L_z mtl T_in T_left) z y x
      = some (
          if x = 0 then
            cell.init (x, y, z) (L_x * x, L_y * y, L_z * z) (L_x, L_y, L_z) mtl T_left true
          else
            cell.init (x, y, z) (L_x * x, L_y * y, L_z * z) (L_x, L_y, L_z) mtl T_in false) := by
  unfold cellAt create_equal_cell_mesh_left_fixed
  simp only [List.get?_map, List.get?_range hz, List.get?_range hy, List.get?_range hx,
    Option.map_some', Option.some_bind]

lemma create_equal_cell_mesh_wf (n_x n_y n_z : ℕ) (L_x L_y L_z : ℚ)
    (mtl : Material) (T_in T_left T_right T_front T_rear : ℚ) :
    (create_equal_cell_mesh n_x n_y n_z L_x L_y L_z mtl
      T_in T_left T_right T_front T_rear).wf = true := by
  simp [mesh.wf, create_equal_cell_mesh, List.all_eq_true, List.mem_map, List.mem_range]

lemma create_left_fixed_wf (n_x n_y n_z : ℕ) (L_x L_y L_z : ℚ)
    (mtl : Material) (T_in T_left : ℚ) :
    (create_equal_cell_mesh_left_fixed n_x n_y n_z L_x L_y L_z mtl T_in T_left).wf = true := by
  simp [mesh.wf, create_equal_cell_mesh_left_fixed, List.all_eq_true, List.mem_map,
    List.mem_range]

set_option maxHeartbeats 3200000 in
lemma conduct_mesh3x3_eval :
    conduct_differential_heat_on_mesh mesh3x3 (1 / 100) = some dsC := by
  norm_num [conduct_differential_heat_on_mesh, mesh3x3, dsC, mesh.enumCells,
    enumTriples, mesh.loopNy, mesh.loopNx, create_equal_cell_mesh, List.range_succ,
    cellBodyT, cellBody, mesh.get_cell, pyIdx, cell.init, dist_sq, cell.get_pos,
    cell.get_T, cell.is_fixed, cell.get_thermal_conductivity, cell.get_density,
    cell.get_spec_heat, mtlConst, Option.bind, int_toNat_lit,
    List.getElem?_cons, List.getElem_cons]

lemma cellAt_mesh3x3_corner : cellAt mesh3x3 0 0 0 = some cornerCell := by
  rw [mesh3x3, cellAt_create_equal_cell_mesh 3 3 1 10 10 10 mtlConst 300 400 400 400 400
    0 0 0 (by norm_num) (by norm_num) (by norm_num)]
  norm_num [cornerCell, cell.init, cell.mk.injEq]

/-- Claim C2: conduct_differential_heat_on_mesh never writes a temperature (in
this embedding it is a pure function from the mesh snapshot to a delta list);
it returns one delta per enumerated cell, in the z-outer, y-middle, x-inner
order that the apply sweep also iterates, and the i-th delta is cellBodyT
applied to the starting snapshot and the i-th enumeration triple alone, so the
deltas are independent of the iteration order. -/
theorem claim_C2_snapshot_deltas (m : mesh) (dt : ℚ) (ds : List ℚ)
    (h : conduct_differential_heat_on_mesh m dt = some ds) :
    (∀ i, ds.get? i = (m.enumCells.get? i).bind (cellBodyT m dt))
    ∧ (m.wf = true → ds.length = m.n_z * (m.n_y * m.n_x)) := by
  constructor
  · intro i
    exact conduct_get? m dt ds h i
  · intro hwf
    rw [conduct_eq_mapOpt] at h
    rw [mapOpt_length (cellBodyT m dt) m.enumCells ds h]
    exact enumCells_length_wf m hwf

/-- Witness for claim C2 at the concrete 3x3x1 scenario mesh. -/
theorem claim_C2_snapshot_deltas_witness :
    dsC.get? 4 = (mesh3x3.enumCells.get? 4).bind (cellBodyT mesh3x3 (1 / 100))
    ∧ dsC.length = mesh3x3.n_z * (mesh3x3.n_y * mesh3x3.n_x) := by
  have H := claim_C2_snapshot_deltas mesh3x3 (1 / 100) dsC conduct_mesh3x3_eval
  exact ⟨H.1 4, H.2 (by decide)⟩

/-- Claim C3: a cell whose fixed flag is true is listed in the enumeration,
every step computation assigns it the delta 0, and any completed run of the
time integration leaves the cell (its temperature included) unchanged. -/
theorem claim_C3_fixed_boundary (m : mesh) (te dt : ℚ) (z y x : ℕ) (c : cell)
    (hwf : m.wf = true) (hc : cellAt m z y x = some c) (hfix : c.fixed = true) :
    (z, y, x) ∈ m.enumCells
    ∧ (∀ ds, conduct_differential_heat_on_mesh m dt = some ds →
        ∀ j, m.enumCells.get? j = some (z, y, x) → ds.get? j = some 0)
    ∧ (∀ m2, conduct_heat_in_time_interval m te dt = some m2 →
        cellAt m2 z y x = some c) := by
  refine ⟨enum_mem_of_cellAt m hwf z y x c hc, ?_, ?_⟩
  · intro ds hds j hj
    rw [conduct_get? m dt ds hds j, hj, Option.some_bind]
    exact cellBody_fixed m dt z y x c hc hfix
  · intro m2 hm2
    unfold conduct_heat_in_time_interval at hm2
    by_cases h1 : te ≤ 0
    · rw [if_pos h1] at hm2
      cases hm2
      exact hc
    · rw [if_neg h1] at hm2
      by_cases h2 : dt ≤ 0
      · rw [if_pos h2] at hm2
        exact Option.noConfusion hm2
      · rw [if_neg h2] at hm2
        exact iterate_steps_fixed dt z y x c hfix _ m m2 hm2 hc

/-- Witness for claim C3 at the fixed corner cell (0,0,0) of the scenario mesh. -/
theorem claim_C3_fixed_boundary_witness :
    (0, 0, 0) ∈ mesh3x3.enumCells
    ∧ dsC.get? 0 = some 0
    ∧ cellAt mesh3x3 0 0 0 = some cornerCell := by
  have H := claim_C3_fixed_boundary mesh3x3 0 (1 / 100) 0 0 0 cornerCell
    (by decide) cellAt_mesh3x3_corner (by rfl)
  refine ⟨H.1, H.2.1 dsC conduct_mesh3x3_eval 0 (by decide), H.2.2 mesh3x3 ?_⟩
  unfold conduct_heat_in_time_interval
  rw [if_pos le_rfl]

/-- Claim C8: time integration with time_end = 0 runs the while-loop body zero
times and returns the mesh unchanged. -/
theorem claim_C8_zero_duration (m : mesh) (dt : ℚ) :
    conduct_heat_in_time_interval m 0 dt = some m := by
  unfold conduct_heat_in_time_interval
  rw [if_pos le_rfl]

/-- Claim C10: cell.get_heat_cpc dereferences the never-assigned attribute
mass (cell.__init__ stores the mass in m), so it raises AttributeError on
every cell and never returns a value. -/
theorem claim_C10_get_heat_cpc :
    (∀ c : cell, c.get_heat_cpc = none) ∧ "mass" ∉ cellAttrs ∧ "m" ∈ cellAttrs := by
  refine ⟨fun c => rfl, by decide, by decide⟩

/-- Claim C7 counterexample: create_equal_cell_mesh called with n_x = 1 (below
the spec's minimum of 2) does not fail: it returns a populated 1x2x1 mesh
whose cells are all fixed at T_left = 400 (the x = 0 branch wins). -/
theorem claim_C7_counterexample :
    meshTiny.cells.length = 1
    ∧ (cellAt meshTiny 0 0 0).map cell.get_T = some 400
    ∧ (cellAt meshTiny 0 1 0).map cell.get_T = some 400 := by
  exact ⟨rfl, rfl, rfl⟩

/-- Claim C7 amended: the builders perform no input validation; for every
grid dimensions (including values below 2) and every cell size (including
non-positive ones) they return a fully populated well-formed mesh. -/
theorem claim_C7_amended (n_x n_y n_z : ℕ) (L_x L_y L_z : ℚ) (mtl : Material)
    (T_in T_left T_right T_front T_rear : ℚ) :
    (create_equal_cell_mesh n_x n_y n_z L_x L_y L_z mtl
        T_in T_left T_right T_front T_rear).wf = true
    ∧ (create_equal_cell_mesh_left_fixed n_x n_y n_z L_x L_y L_z mtl T_in T_left).wf
        = true :=
  ⟨create_equal_cell_mesh_wf n_x n_y n_z L_x L_y L_z mtl T_in T_left T_right T_front T_rear,
   create_left_fixed_wf n_x n_y n_z L_x L_y L_z mtl T_in T_left⟩

/-- Claim C1: on the 3x3x1 four-edge mesh (10 mm cells, k = 1, rho = 1000,
c = 500, interior 300 K, edges 400 K), one step computation with dt = 0.01 s
followed by the apply sweep sets the single free cell (1,1,0) to exactly
300 + 2e-6 * ((400 - 600 + 400) / 0.01^2 + (400 - 600 + 400) / 0.01^2) * 0.01
= 300.08 = 7502/25 K and leaves every other cell at 400 K. -/
theorem claim_C1_concrete_step :
    ((conduct_differential_heat_on_mesh mesh3x3 (1 / 100)).bind (applyDTs mesh3x3)).map tempsOf
      = some [some 400, some 400, some 400, some 400, some (7502 / 25),
              some 400, some 400, some 400, some 400] := by
  rw [conduct_mesh3x3_eval, Option.some_bind]
  norm_num [mesh3x3, dsC, mesh.enumCells, enumTriples, mesh.loopNy, mesh.loopNx,
    create_equal_cell_mesh, List.range_succ, mesh.get_cell, pyIdx, cell.init,
    cell.get_T, mtlConst, Option.bind, int_toNat_lit, List.getElem?_cons,
    List.getElem_cons, applyDTs, sweepStep, modifyCell, listModify, tempsOf, cellAt]

/-- Claim C4 counterexample: the index ix = -1 lies outside [0, n_x) = [0, 3),
yet get_cell does not return None: Python negative indexing wraps around and
returns the stored right-edge cell, whose index is (2, 0, 0). -/
theorem claim_C4_counterexample :
    (mesh3x3.get_cell (-1) 0 0).map cell.get_index = some (2, 0, 0)
    ∧ mesh3x3.get_cell (-1) 0 0 ≠ none := by
  have hA : (mesh3x3.get_cell (-1) 0 0).map cell.get_index = some (2, 0, 0) := by
    norm_num [mesh3x3, create_equal_cell_mesh, mesh.get_cell, pyIdx, cell.init,
      cell.get_index, List.range_succ, Option.bind, int_toNat_lit,
      List.getElem?_cons, List.getElem_cons]
  refine ⟨hA, fun h => ?_⟩
  rw [h] at hA
  exact Option.noConfusion hA

/-- Claim C4 amended: on a well-formed mesh, get_cell returns the stored cell
for indices in [0, n) per axis, returns None when some index is below -n or at
or above n for its axis, and for negative indices in [-n, -1] wraps around
(Python semantics) to the cell at n + i; it never raises (it is total). -/
theorem claim_C4_amended (m : mesh) (hwf : m.wf = true) (ix iy iz : ℤ) (z y x : ℕ)
    (hz : z < m.n_z) (hy : y < m.n_y) (hx : x < m.n_x) :
    (m.get_cell ix iy iz =
      if -(m.n_z : ℤ) ≤ iz ∧ iz < (m.n_z : ℤ) ∧ -(m.n_y : ℤ) ≤ iy ∧ iy < (m.n_y : ℤ)
          ∧ -(m.n_x : ℤ) ≤ ix ∧ ix < (m.n_x : ℤ)
      then cellAt m (wrap m.n_z iz) (wrap m.n_y iy) (wrap m.n_x ix)
      else none)
    ∧ (cellAt m z y x).isSome = true := by
  obtain ⟨hlen, hpl⟩ := wf_lengths m hwf
  constructor
  · unfold mesh.get_cell
    rw [pyIdx_char, hlen]
    by_cases hcz : -(m.n_z : ℤ) ≤ iz ∧ iz < (m.n_z : ℤ)
    · rw [if_pos hcz]
      have hwz : wrap m.n_z iz < m.cells.length := by
        rw [hlen]; unfold wrap; split <;> omega
      have hplane : m.cells.get? (wrap m.n_z iz)
          = some (m.cells.get ⟨wrap m.n_z iz, hwz⟩) := List.get?_eq_get hwz
      obtain ⟨hplen, hrows⟩ :=
        hpl (m.cells.get ⟨wrap m.n_z iz, hwz⟩) (List.get_mem m.cells _ hwz)
      rw [hplane, Option.some_bind, pyIdx_char, hplen]
      by_cases hcy : -(m.n_y : ℤ) ≤ iy ∧ iy < (m.n_y : ℤ)
      · rw [if_pos hcy]
        have hwy : wrap m.n_y iy < (m.cells.get ⟨wrap m.n_z iz, hwz⟩).length := by
          rw [hplen]; unfold wrap; split <;> omega
        have hrow : (m.cells.get ⟨wrap m.n_z iz, hwz⟩).get? (wrap m.n_y iy)
            = some ((m.cells.get ⟨wrap m.n_z iz, hwz⟩).get ⟨wrap m.n_y iy, hwy⟩) :=
          List.get?_eq_get hwy
        have hrlen := hrows ((m.cells.get ⟨wrap m.n_z iz, hwz⟩).get ⟨wrap m.n_y iy, hwy⟩)
          (List.get_mem _ _ hwy)
        rw [hrow, Option.some_bind, pyIdx_char, hrlen]
        by_cases hcx : -(m.n_x : ℤ) ≤ ix ∧ ix < (m.n_x : ℤ)
        · rw [if_pos hcx, if_pos ⟨hcz.1, hcz.2, hcy.1, hcy.2, hcx.1, hcx.2⟩]
          unfold cellAt
          rw [hplane, Option.some_bind, hrow, Option.some_bind]
        · rw [if_neg hcx, if_neg (by tauto)]
      · rw [if_neg hcy, if_neg (by tauto), Option.none_bind]
    · rw [if_neg hcz, if_neg (by tauto), Option.none_bind]
  · obtain ⟨c, hc⟩ := cellAt_some m hwf z y x hz hy hx
    rw [hc]
    rfl

/-- Witness for claim C4 amended: on the scenario mesh, looking up ix = -1
wraps to the stored cell at x = 2, and in-bounds cells are present. -/
theorem claim_C4_amended_witness :
    mesh3x3.get_cell (-1) 0 0 = cellAt mesh3x3 0 0 2
    ∧ (cellAt mesh3x3 0 0 2).isSome = true := by
  have H := claim_C4_amended mesh3x3 (by decide) (-1) 0 0 0 0 2
    (by decide) (by decide) (by decide)
  refine ⟨?_, H.2⟩
  rw [H.1, if_pos (by decide)]
  rfl

/-- Claim C6: the four-edge builder fixes exactly the cells on the four edges,
with the x = 0 and x = n_x - 1 branches tested before (taking priority over)
the y = 0 and y = n_y - 1 branches, temperatures T_left, T_right, T_front,
T_rear respectively, and every other cell free at T_in; the left-edge-only
builder fixes exactly x = 0 at T_left and leaves every other cell, including
the right, front and rear edges, free at T_in. -/
theorem claim_C6_builder_classification (n_x n_y n_z : ℕ) (L_x L_y L_z : ℚ)
    (mtl : Material) (T_in T_left T_right T_front T_rear : ℚ) (z y x : ℕ)
    (hz : z < n_z) (hy : y < n_y) (hx : x < n_x) :
    (cellAt (create_equal_cell_mesh n_x n_y n_z L_x L_y L_z mtl
        T_in T_left T_right T_front T_rear) z y x
      = some (
          if x = 0 then
            cell.init (x, y, z) (L_x * x, L_y * y, L_z * z) (L_x, L_y, L_z) mtl T_left true
          else if x = n_x - 1 then
            cell.init (x, y, z) (L_x * x, L_y * y, L_z * z) (L_x, L_y, L_z) mtl T_right true
          else if y = 0 then
            cell.init (x, y, z) (L_x * x, L_y * y, L_z * z) (L_x, L_y, L_z) mtl T_front true
          else if y = n_y - 1 then
            cell.init (x, y, z) (L_x * x, L_y * y, L_z * z) (L_x, L_y, L_z) mtl T_rear true
          else
            cell.init (x, y, z) (L_x * x, L_y * y, L_z * z) (L_x, L_y, L_z) mtl T_in false))
    ∧ (cellAt (create_equal_cell_mesh_left_fixed n_x n_y n_z L_x L_y L_z mtl
        T_in T_left) z y x
      = some (
          if x = 0 then
            cell.init (x, y, z) (L_x * x, L_y * y, L_z * z) (L_x, L_y, L_z) mtl T_left true
          else
            cell.init (x, y, z) (L_x * x, L_y * y, L_z * z) (L_x, L_y, L_z) mtl T_in false)) :=
  ⟨cellAt_create_equal_cell_mesh n_x n_y n_z L_x L_y L_z mtl
      T_in T_left T_right T_front T_rear z y x hz hy hx,
   cellAt_create_left_fixed n_x n_y n_z L_x L_y L_z mtl T_in T_left z y x hz hy hx⟩

/-- Witness for claim C6: in a 2x2x1 build, the cell at (x,y) = (1,0) lies on
both the right edge (x = n_x - 1) and the front edge (y = 0); the four-edge
builder fixes it at T_right = 401 (x-edge priority), while the left-edge-only
builder leaves it free at T_in = 300. -/
theorem claim_C6_builder_classification_witness :
    (cellAt (create_equal_cell_mesh 2 2 1 10 10 10 mtlConst 300 400 401 402 403) 0 0 1).map
        (fun c => (c.get_T, c.is_fixed)) = some (401, true)
    ∧ (cellAt (create_equal_cell_mesh_left_fixed 2 2 1 10 10 10 mtlConst 300 400) 0 0 1).map
        (fun c => (c.get_T, c.is_fixed)) = some (300, false) := by
  have H := claim_C6_builder_classification 2 2 1 10 10 10 mtlConst 300 400 401 402 403
    0 0 1 (by norm_num) (by norm_num) (by norm_num)
  rw [H.1, H.2]
  norm_num [cell.init, cell.get_T, cell.is_fixed]

/-- Claim C9: for in-bounds indices, the lookup on a built mesh returns a cell
whose stored position is (L_x * ix, L_y * iy, L_z * iz) and whose stored index
is (ix, iy, iz), for both builders. -/
theorem claim_C9_round_trip (n_x n_y n_z : ℕ) (L_x L_y L_z : ℚ)
    (mtl : Material) (T_in T_left T_right T_front T_rear : ℚ) (z y x : ℕ)
    (hz : z < n_z) (hy : y < n_y) (hx : x < n_x) :
    (((create_equal_cell_mesh n_x n_y n_z L_x L_y L_z mtl
          T_in T_left T_right T_front T_rear).get_cell x y z).map cell.get_pos
        = some (L_x * x, L_y * y, L_z * z)
      ∧ ((create_equal_cell_mesh n_x n_y n_z L_x L_y L_z mtl
          T_in T_left T_right T_front T_rear).get_cell x y z).map cell.get_index
        = some ((x : ℤ), (y : ℤ), (z : ℤ)))
    ∧ (((create_equal_cell_mesh_left_fixed n_x n_y n_z L_x L_y L_z mtl
          T_in T_left).get_cell x y z).map cell.get_pos
        = some (L_x * x, L_y * y, L_z * z)
      ∧ ((create_equal_cell_mesh_left_fixed n_x n_y n_z L_x L_y L_z mtl
          T_in T_left).get_cell x y z).map cell.get_index
        = some ((x : ℤ), (y : ℤ), (z : ℤ))) := by
  rw [get_cell_nat, get_cell_nat,
    cellAt_create_equal_cell_mesh n_x n_y n_z L_x L_y L_z mtl
      T_in T_left T_right T_front T_rear z y x hz hy hx,
    cellAt_create_left_fixed n_x n_y n_z L_x L_y L_z mtl T_in T_left z y x hz hy hx]
  refine ⟨⟨?_, ?_⟩, ?_, ?_⟩ <;>
    · simp only [Option.map_some']
      split_ifs <;> rfl

/-- Witness for claim C9 at a concrete 2x2x1 build and index (1,0,0). -/
theorem claim_C9_round_trip_witness :
    ((create_equal_cell_mesh 2 2 1 10 10 10 mtlConst 300 400 401 402 403).get_cell
        1 0 0).map cell.get_pos = some (10, 0, 0)
    ∧ ((create_equal_cell_mesh 2 2 1 10 10 10 mtlConst 300 400 401 402 403).get_cell
        1 0 0).map cell.get_index = some (1, 0, 0) := by
  have H := claim_C9_round_trip 2 2 1 10 10 10 mtlConst 300 400 401 402 403
    0 0 1 (by norm_num) (by norm_num) (by norm_num)
  constructor
  · rw [show ((1 : ℤ)) = ((1 : ℕ) : ℤ) by norm_num, show ((0 : ℤ)) = ((0 : ℕ) : ℤ) by norm_num,
      H.1.1]
    try norm_num
  · rw [show ((1 : ℤ)) = ((1 : ℕ) : ℤ) by norm_num, show ((0 : ℤ)) = ((0 : ℕ) : ℤ) by norm_num,
      H.1.2]
    try norm_num

/-- Claim C5 counterexample: in meshWrap the cell (z,y,x) = (0,0,1) is free
and its front neighbor index y - 1 = -1 lies outside the grid bounds, yet the
loop body does not fall back to the cell's own temperature: the lookup wraps
to the rear cell (1,1,0) at 350 K, giving delta 0.04, while the spec's
fallback (front temperature = own 300 K) would give 0.03. -/
theorem claim_C5_counterexample :
    (cellAt meshWrap 0 0 1).map cell.is_fixed = some false
    ∧ cellBody meshWrap (1 / 100) 0 0 1 = some (1 / 25)
    ∧ cellBody_spec_fallback meshWrap (1 / 100) 0 0 1 = some (3 / 100)
    ∧ cellBody meshWrap (1 / 100) 0 0 1 ≠ cellBody_spec_fallback meshWrap (1 / 100) 0 0 1 := by
  have h1 : (cellAt meshWrap 0 0 1).map cell.is_fixed = some false := by
    norm_num [meshWrap, cellAt, cell.init, cell.is_fixed, List.getElem?_cons]
  have h2 : cellBody meshWrap (1 / 100) 0 0 1 = some (1 / 25) := by
    norm_num [cellBody, meshWrap, mesh.get_cell, pyIdx, cell.init, dist_sq,
      cell.get_pos, cell.get_T, cell.is_fixed, cell.get_thermal_conductivity,
      cell.get_density, cell.get_spec_heat, mtlConst, Option.bind, int_toNat_lit,
      List.getElem?_cons, List.getElem_cons]
  have h3 : cellBody_spec_fallback meshWrap (1 / 100) 0 0 1 = some (3 / 100) := by
    norm_num [cellBody_spec_fallback, boundedLookup, meshWrap, mesh.get_cell, pyIdx,
      cell.init, dist_sq, cell.get_pos, cell.get_T, cell.is_fixed,
      cell.get_thermal_conductivity, cell.get_density, cell.get_spec_heat, mtlConst,
      Option.bind, int_toNat_lit, List.getElem?_cons, List.getElem_cons]
  refine ⟨h1, h2, h3, ?_⟩
  rw [h2, h3]
  intro h
  rw [Option.some.injEq] at h
  norm_num at h

/-- Claim C5 amended: the own-temperature fallback holds for the right and
rear neighbors (whose out-of-range lookup at x + 1 = n_x or y + 1 = n_y really
misses), so for every in-bounds cell whose left and front neighbors are
in-bounds (x >= 1, y >= 1) the loop body coincides with the spec's Policy A
fallback body.  For x = 0 or y = 0 the claim fails: the left or front index -1
wraps to the opposite edge of the grid (see the counterexample). -/
theorem claim_C5_amended (m : mesh) (dt : ℚ) (z y x : ℕ) (c : cell)
    (hwf : m.wf = true) (hz : z < m.n_z) (hy : y < m.n_y) (hx : x < m.n_x)
    (hc : cellAt m z y x = some c) (hx1 : 1 ≤ x) (hy1 : 1 ≤ y) :
    cellBody m dt z y x = cellBody_spec_fallback m dt z y x := by
  have exl : ((x : ℤ) - 1) = ((x - 1 : ℕ) : ℤ) := by omega
  have exr : ((x : ℤ) + 1) = ((x + 1 : ℕ) : ℤ) := by omega
  have eyf : ((y : ℤ) - 1) = ((y - 1 : ℕ) : ℤ) := by omega
  have eyr : ((y : ℤ) + 1) = ((y + 1 : ℕ) : ℤ) := by omega
  obtain ⟨cl, hcl⟩ := cellAt_some m hwf z y (x - 1) hz hy (by omega)
  obtain ⟨cf, hcf⟩ := cellAt_some m hwf z (y - 1) x hz (by omega) hx
  have hgl : m.get_cell ((x : ℤ) - 1) (y : ℤ) (z : ℤ) = some cl := by
    rw [exl, get_cell_nat]
    exact hcl
  have hgf : m.get_cell (x : ℤ) ((y : ℤ) - 1) (z : ℤ) = some cf := by
    rw [eyf, get_cell_nat]
    exact hcf
  have hbl : boundedLookup m ((x : ℤ) - 1) (y : ℤ) (z : ℤ) = some cl := by
    unfold boundedLookup
    rw [if_pos (by omega)]
    exact hgl
  have hbf : boundedLookup m (x : ℤ) ((y : ℤ) - 1) (z : ℤ) = some cf := by
    unfold boundedLookup
    rw [if_pos (by omega)]
    exact hgf
  have hbr : boundedLookup m ((x : ℤ) + 1) (y : ℤ) (z : ℤ)
      = m.get_cell ((x : ℤ) + 1) (y : ℤ) (z : ℤ) := by
    rcases Nat.lt_or_ge (x + 1) m.n_x with hcase | hcase
    · unfold boundedLookup
      rw [if_pos (by omega)]
    · have hnone : m.get_cell ((x : ℤ) + 1) (y : ℤ) (z : ℤ) = none := by
        rw [exr, get_cell_nat]
        exact cellAt_none_x m hwf z y (x + 1) hz hy hcase
      unfold boundedLookup
      rw [if_neg (by omega), hnone]
  have hbb : boundedLookup m (x : ℤ) ((y : ℤ) + 1) (z : ℤ)
      = m.get_cell (x : ℤ) ((y : ℤ) + 1) (z : ℤ) := by
    rcases Nat.lt_or_ge (y + 1) m.n_y with hcase | hcase
    · unfold boundedLookup
      rw [if_pos (by omega)]
    · have hnone : m.get_cell (x : ℤ) ((y : ℤ) + 1) (z : ℤ) = none := by
        rw [eyr, get_cell_nat]
        exact cellAt_none_y m hwf z (y + 1) x hz hcase
      unfold boundedLookup
      rw [if_neg (by omega), hnone]
  unfold cellBody cellBody_spec_fallback
  rw [get_cell_nat m x y z, hc]
  simp only [hgl, hgf, hbl, hbf, hbr, hbb]
  simp

/-- Witness for claim C5 amended at the free cell (z,y,x) = (0,1,1) of
meshWrap, whose right and rear neighbor indices are out of range. -/
theorem claim_C5_amended_witness :
    cellBody meshWrap (1 / 100) 0 1 1 = cellBody_spec_fallback meshWrap (1 / 100) 0 1 1 := by
  exact claim_C5_amended meshWrap (1 / 100) 0 1 1
    (cell.init (1, 1, 0) (10, 10, 0) (10, 10, 10) mtlConst 350 false)
    (by decide) (by decide) (by decide) (by decide) rfl (by decide) (by decide)
